import Mathlib

/-!
Verification of the chess game-analysis pipeline in `src/analysis.py`.

The Python module drives an external chess engine (`python-chess` +
Stockfish) over replayed games, derives per-move centipawn loss, flags
blunders, computes accuracy, and derives opening names from PGN headers.

Here the pure logic of `analysis.py` is embedded shallowly:
* Python `int` becomes `Int`, Python `float` arithmetic on evaluation
  values becomes `ℚ` (the values involved are exact small rationals),
  `Optional[T]` becomes `Option T`, exceptions become `Except`.
* The external chess library (`chess.Board`, SAN printing, FEN printing)
  is abstracted as a `ChessLib` structure of opaque-to-the-logic
  functions; the engine's `analyse` call becomes an arbitrary function
  `evalPos : Board → Int` (White-point-of-view centipawns, as produced
  by `evaluate_position`).
* `os.path.isfile` and `shutil.which` are abstracted as function
  parameters; `urllib.parse.urlparse` / `unquote` and the handful of
  Python `str` methods used are modelled directly on `List Char`.
-/

set_option maxHeartbeats 1000000

/-- Python whitespace characters as recognised by `str.strip()` /
`str.split()` (ASCII range, which is what PGN headers contain). -/
def isPySpace (c : Char) : Bool :=
  c = ' ' || c = '\t' || c = '\n' || c = '\x0d' || c = '\x0b' || c = '\x0c'

/-- Model of Python `s.strip()`: drop whitespace from both ends. -/
def pyStrip (s : String) : String :=
  String.mk (((s.data.dropWhile isPySpace).reverse.dropWhile isPySpace).reverse)

/-- Model of Python `s.lower()` (ASCII case folding). -/
def pyLower (s : String) : String :=
  String.mk (s.data.map Char.toLower)

/-- Model of Python `s.strip(c)` for a single strip character. -/
def pyStripChar (s : String) (c : Char) : String :=
  String.mk (((s.data.dropWhile (· = c)).reverse.dropWhile (· = c)).reverse)

/-- Model of Python `s.replace(a, b)` for single-character arguments. -/
def pyReplaceChar (s : String) (a b : Char) : String :=
  String.mk (s.data.map (fun c => if c = a then b else c))

/-- Blunder threshold constant, `src/analysis.py` line 13. -/
def BLUNDER_THRESHOLD : Int := 200

/-- Mate sentinel used by `score_to_cp`, `src/analysis.py` line 14. -/
def MATE_SCORE : Int := 100000

/-- Embedding of `resolve_stockfish_path` (`src/analysis.py` lines 17-29).
`os.path.isfile` and `shutil.which` are abstracted as the parameters
`isfile` and `which`; the `FileNotFoundError` becomes `Except.error`
carrying the raised message. -/
def resolve_stockfish_path (isfile : String → Bool) (which : String → Option String)
    (stockfish_path : String) : Except String String :=
  let candidates := [stockfish_path, "./stockfish", "stockfish"]
  go candidates
where
  go : List String → Except String String
    | [] => .error "Stockfish binary not found. Provide a valid path in the sidebar."
    | candidate :: rest =>
      if candidate = "" then go rest
      else if isfile candidate then .ok candidate
      else
        match which candidate with
        | some resolved => .ok resolved
        | none => go rest

/-- Embedding of `identify_user_color` (`src/analysis.py` lines 32-40).
PGN headers are modelled as a partial map `String → Option String`;
`headers.get(k, "")` is `(headers k).getD ""`. -/
def identify_user_color (headers : String → Option String) (username : String) :
    Option String :=
  if username = "" then none
  else
    let normalized := pyLower (pyStrip username)
    if normalized ≠ "" ∧ pyLower (pyStrip ((headers "White").getD "")) = normalized then
      some "white"
    else if normalized ≠ "" ∧ pyLower (pyStrip ((headers "Black").getD "")) = normalized then
      some "black"
    else
      none

/-- Embedding of `centipawn_loss` (`src/analysis.py` lines 52-56). -/
def centipawn_loss (before_cp after_cp : Int) (my_color : String) : Int :=
  let before_pov := if my_color = "white" then before_cp else -before_cp
  let after_pov := if my_color = "white" then after_cp else -after_cp
  let loss := before_pov - after_pov
  max 0 loss

/-- The point-of-view sign convention applied inside `centipawn_loss`
(`src/analysis.py` lines 53-54): negate iff the color is not `"white"`. -/
def pov_cp (cp : Int) (my_color : String) : Int :=
  if my_color = "white" then cp else -cp

theorem centipawn_loss_eq_pov (before_cp after_cp : Int) (my_color : String) :
    centipawn_loss before_cp after_cp my_color =
      max 0 (pov_cp before_cp my_color - pov_cp after_cp my_color) := rfl

/-- Embedding of `accuracy_from_losses` (`src/analysis.py` lines 59-64).
Python float arithmetic on these values is exact rational arithmetic,
modelled in `ℚ`. -/
def accuracy_from_losses (losses : List Int) : Option ℚ :=
  if losses = [] then none
  else
    let avg_loss : ℚ := (losses.sum : ℚ) / (losses.length : ℚ)
    let accuracy : ℚ := 100 - avg_loss / 2
    some (max 0 (min 100 accuracy))

/-- C1: for color `"white"` or `"black"`, `centipawn_loss` equals
`max 0 (before_pov - after_pov)` where the point-of-view values are the
inputs negated iff the color is black; it is never negative, and an
improving move (POV not decreasing) yields exactly 0. -/
theorem centipawn_loss_spec (before_cp after_cp : Int) (my_color : String)
    (h : my_color = "white" ∨ my_color = "black") :
    centipawn_loss before_cp after_cp my_color =
      max 0 ((if my_color = "black" then -before_cp else before_cp) -
             (if my_color = "black" then -after_cp else after_cp)) ∧
    0 ≤ centipawn_loss before_cp after_cp my_color ∧
    ((if my_color = "black" then -before_cp else before_cp) ≤
       (if my_color = "black" then -after_cp else after_cp) →
     centipawn_loss before_cp after_cp my_color = 0) := by
  rcases h with h | h <;> subst h <;>
    refine ⟨?_, ?_, ?_⟩ <;>
    simp only [centipawn_loss, String.reduceEq, reduceIte] <;> omega

/-- Witness for C1 at concrete inputs. -/
theorem centipawn_loss_spec_witness :
    centipawn_loss 30 (-171) "black" =
      max 0 ((if "black" = "black" then -(30 : Int) else 30) -
             (if "black" = "black" then -(-171 : Int) else -171)) ∧
    0 ≤ centipawn_loss 30 (-171) "black" ∧
    ((if "black" = "black" then -(30 : Int) else 30) ≤
       (if "black" = "black" then -(-171 : Int) else -171) →
     centipawn_loss 30 (-171) "black" = 0) :=
  centipawn_loss_spec 30 (-171) "black" (Or.inr rfl)

/-- C2: for a list of non-negative losses, `accuracy_from_losses` is
`none` exactly when the list is empty, and otherwise is
`100 - (average / 2)` clamped to `[0, 100]`; any returned value lies in
`[0, 100]`. -/
theorem accuracy_from_losses_spec (losses : List Int)
    (_hnn : ∀ l ∈ losses, 0 ≤ l) :
    (accuracy_from_losses losses = none ↔ losses = []) ∧
    (∀ q, accuracy_from_losses losses = some q →
       q = max 0 (min 100 (100 - ((losses.sum : ℚ) / (losses.length : ℚ)) / 2)) ∧
       0 ≤ q ∧ q ≤ 100) := by
  constructor
  · constructor
    · intro h
      by_contra hne
      simp only [accuracy_from_losses, if_neg hne] at h
      exact Option.noConfusion h
    · intro h
      simp [accuracy_from_losses, h]
  · intro q hq
    by_cases hne : losses = []
    · simp [accuracy_from_losses, hne] at hq
    · simp only [accuracy_from_losses, if_neg hne, Option.some.injEq] at hq
      refine ⟨hq.symm, ?_, ?_⟩
      · rw [← hq]; exact le_max_left 0 _
      · rw [← hq]
        exact max_le (by norm_num) (min_le_left 100 _)

/-- Witness for C2 at a concrete input. -/
theorem accuracy_from_losses_spec_witness :
    (accuracy_from_losses [50] = none ↔ ([50] : List Int) = []) ∧
    (∀ q, accuracy_from_losses [50] = some q →
       q = max 0 (min 100 (100 - ((([50] : List Int).sum : ℚ) /
             ((([50] : List Int).length : Nat) : ℚ)) / 2)) ∧
       0 ≤ q ∧ q ≤ 100) :=
  accuracy_from_losses_spec [50] (by decide)

/-- Model of Python `s.split()` (split on whitespace runs, dropping
empty pieces), on character lists; `acc` is the current word reversed. -/
def pySplitWsAux : List Char → List Char → List (List Char)
  | [], acc => if acc.isEmpty then [] else [acc.reverse]
  | c :: cs, acc =>
    if isPySpace c then
      if acc.isEmpty then pySplitWsAux cs [] else acc.reverse :: pySplitWsAux cs []
    else
      pySplitWsAux cs (c :: acc)

/-- Model of Python `" ".join(s.split())`: collapse whitespace runs to
single spaces and trim. -/
def pyCollapseWs (s : String) : String :=
  String.mk (List.intercalate [' '] (pySplitWsAux s.data []))

/-- Model of Python `s.split("/")` (keeps empty pieces), on character
lists; `acc` is the current piece reversed. -/
def pySplitSlashAux : List Char → List Char → List (List Char)
  | [], acc => [acc.reverse]
  | c :: cs, acc =>
    if c = '/' then acc.reverse :: pySplitSlashAux cs []
    else pySplitSlashAux cs (c :: acc)

/-- Value of a hexadecimal digit character, if it is one. -/
def hexDigit (c : Char) : Option Nat :=
  if '0' ≤ c ∧ c ≤ '9' then some (c.toNat - '0'.toNat)
  else if 'a' ≤ c ∧ c ≤ 'f' then some (c.toNat - 'a'.toNat + 10)
  else if 'A' ≤ c ∧ c ≤ 'F' then some (c.toNat - 'A'.toNat + 10)
  else none

/-- Model of `urllib.parse.unquote`: decode `%XX` escapes, leaving `%`
untouched when not followed by two hex digits (byte-level; multi-byte
UTF-8 sequences decode byte by byte). -/
def unquoteAux : List Char → List Char
  | [] => []
  | '%' :: a :: b :: rest =>
    match hexDigit a, hexDigit b with
    | some x, some y => Char.ofNat (16 * x + y) :: unquoteAux rest
    | _, _ => '%' :: unquoteAux (a :: b :: rest)
  | c :: rest => c :: unquoteAux rest

/-- Model of `urllib.parse.unquote` on strings. -/
def unquote (s : String) : String := String.mk (unquoteAux s.data)

/-- Characters allowed in a URL scheme after the leading letter. -/
def isSchemeChar (c : Char) : Bool :=
  c.isAlphanum || c = '+' || c = '-' || c = '.'

/-- Model of `urllib.parse.urlparse(url).path`: drop the fragment (after
`#`), a syntactically valid leading `scheme:`, a `//netloc` component
(up to the next `/` or `?`), and the query (after `?`). -/
def urlparse_path (url : String) : String :=
  let l := url.data.takeWhile (· ≠ '#')
  let pre := l.takeWhile (· ≠ ':')
  let l :=
    if pre.length < l.length && !pre.isEmpty &&
        (pre.headD 'a').isAlpha && pre.all isSchemeChar then
      l.drop (pre.length + 1)
    else l
  let l :=
    match l with
    | '/' :: '/' :: rest => rest.dropWhile (fun c => c ≠ '/' && c ≠ '?')
    | _ => l
  String.mk (l.takeWhile (· ≠ '?'))

/-- Embedding of `normalize_opening_name` (`src/analysis.py` lines
173-177): Python falsiness of `None` and `""` collapses to `none`, then
the stripped value if non-empty. -/
def normalize_opening_name (value : Option String) : Option String :=
  match value with
  | none => none
  | some v =>
    if v = "" then none
    else
      let trimmed := pyStrip v
      if trimmed = "" then none else some trimmed

/-- Embedding of `opening_name_from_eco_url` (`src/analysis.py` lines
180-194).  The `try/except` wrapper returns `None` on any exception; the
pure model cannot raise, so only the explicit `None` paths remain. -/
def opening_name_from_eco_url (eco_url : String) : Option String :=
  let path := pyStripChar (urlparse_path eco_url) '/'
  if path = "" then none
  else
    let last_segment := String.mk ((pySplitSlashAux path.data []).getLastD [])
    if last_segment = "" then none
    else
      let decoded := unquote last_segment
      let normalized := pyStrip (pyReplaceChar (pyReplaceChar decoded '-' ' ') '_' ' ')
      let normalized2 := pyCollapseWs normalized
      if normalized2 = "" then none else some normalized2

/-- Embedding of `derive_opening_name` (`src/analysis.py` lines
155-170). -/
def derive_opening_name (headers : String → Option String) : Option String :=
  let opening := normalize_opening_name (headers "Opening")
  if opening.isSome then opening
  else
    let eco_url := normalize_opening_name (headers "ECOUrl")
    let eco_url_name :=
      match eco_url with
      | some u => opening_name_from_eco_url u
      | none => none
    if eco_url_name.isSome then eco_url_name
    else
      match normalize_opening_name (headers "ECO") with
      | some eco => some ("ECO " ++ eco)
      | none => none

/-- The operations of the external `python-chess` library that
`analyze_game` uses on a board.  `turn = true` is `chess.WHITE`. -/
structure ChessLib (B M : Type) where
  turn : B → Bool
  push : B → M → B
  san : B → M → String
  fen : B → String
  fullmove_number : B → Nat

/-- One element of the `moves` list built by `analyze_game`
(`src/analysis.py` lines 103-112). -/
structure MoveRecord where
  move_number : Nat
  ply : Nat
  fen : String
  move_san : String
  engine_eval : Option Int
  is_blunder : Bool
deriving DecidableEq, Repr

/-- The game-summary dictionary returned by `analyze_game`
(`src/analysis.py` lines 118-130). -/
structure GameSummary where
  date : Option String
  white : Option String
  black : Option String
  result : Option String
  opening_name : Option String
  my_accuracy : Option ℚ
  blunders : Nat
  pgn_text : String

/-- The `is_user_move` condition of `src/analysis.py` lines 84-89. -/
def is_user_move_b {B M : Type} (lib : ChessLib B M) (my_color : Option String)
    (board : B) : Bool :=
  (my_color == some "white" && lib.turn board) ||
  (my_color == some "black" && !lib.turn board)

/-- Replaying a list of moves from a board by successive `push` calls. -/
def replay {B M : Type} (lib : ChessLib B M) : B → List M → B
  | board, [] => board
  | board, move :: rest => replay lib (lib.push board move) rest

/-- The per-ply loop of `analyze_game` (`src/analysis.py` lines 80-112):
starting from `board` with `ply` half-moves already counted, process the
remaining `moves`, returning the move records, the tracked-player loss
list and the blunder count.  `evalPos` stands for
`evaluate_position(board, engine)` (White-POV centipawns). -/
def analyze_game_loop {B M : Type} (lib : ChessLib B M) (evalPos : B → Int)
    (my_color : Option String) : B → Nat → List M → List MoveRecord × List Int × Nat
  | _board, _ply, [] => ([], [], 0)
  | board, ply, move :: rest =>
    let move_number := lib.fullmove_number board
    let move_san := lib.san board move
    if is_user_move_b lib my_color board then
      let eval_before := evalPos board
      let board2 := lib.push board move
      let eval_after := evalPos board2
      let engine_eval := some eval_after
      let loss := centipawn_loss eval_before eval_after (my_color.getD "")
      let is_blunder : Bool := decide (BLUNDER_THRESHOLD < loss)
      let r := analyze_game_loop lib evalPos my_color board2 (ply + 1) rest
      (⟨move_number, ply + 1, lib.fen board2, move_san, engine_eval, is_blunder⟩ :: r.1,
       loss :: r.2.1,
       (if is_blunder then 1 else 0) + r.2.2)
    else
      let board2 := lib.push board move
      let r := analyze_game_loop lib evalPos my_color board2 (ply + 1) rest
      (⟨move_number, ply + 1, lib.fen board2, move_san, none, false⟩ :: r.1, r.2.1, r.2.2)

/-- Embedding of `analyze_game` (`src/analysis.py` lines 67-131), with
the opening-name field of the summary left to `derive_opening_name`
separately (it depends only on `headers`).  The game object is taken
apart into its header map, initial board `b0`, mainline move list and
exported PGN text (`game.accept(StringExporter(...))`, an external-library
call, enters as the `game_pgn` argument). -/
def analyze_game {B M : Type} (lib : ChessLib B M) (evalPos : B → Int)
    (headers : String → Option String) (b0 : B) (moves : List M) (game_pgn : String)
    (username : String) : GameSummary × List MoveRecord :=
  let my_color := identify_user_color headers username
  let r := analyze_game_loop lib evalPos my_color b0 0 moves
  ({ date := headers "Date"
     white := headers "White"
     black := headers "Black"
     result := headers "Result"
     opening_name := derive_opening_name headers
     my_accuracy := accuracy_from_losses r.2.1
     blunders := r.2.2
     pgn_text := game_pgn },
   r.1)

/-- Master invariant of the per-ply loop, by induction over the move
list: record count, ply numbering, the engine-eval field, and the
blunder flag, all phrased against the replayed board trajectory. -/
theorem analyze_game_loop_spec {B M : Type} (lib : ChessLib B M) (evalPos : B → Int)
    (my_color : Option String) :
    ∀ (moves : List M) (board : B) (ply : Nat),
      (analyze_game_loop lib evalPos my_color board ply moves).1.length = moves.length ∧
      (analyze_game_loop lib evalPos my_color board ply moves).2.2 =
        ((analyze_game_loop lib evalPos my_color board ply moves).1.filter
          (fun rec => rec.is_blunder)).length ∧
      (∀ k (hk : k < (analyze_game_loop lib evalPos my_color board ply moves).1.length),
        ((analyze_game_loop lib evalPos my_color board ply moves).1[k].ply = ply + k + 1 ∧
         (analyze_game_loop lib evalPos my_color board ply moves).1[k].engine_eval =
           (if is_user_move_b lib my_color (replay lib board (moves.take k)) then
              some (evalPos (replay lib board (moves.take (k + 1))))
            else none) ∧
         ((analyze_game_loop lib evalPos my_color board ply moves).1[k].is_blunder = true ↔
            is_user_move_b lib my_color (replay lib board (moves.take k)) = true ∧
            BLUNDER_THRESHOLD <
              centipawn_loss (evalPos (replay lib board (moves.take k)))
                (evalPos (replay lib board (moves.take (k + 1)))) (my_color.getD "")))) := by
  intro moves
  induction moves with
  | nil =>
    intro board ply
    refine ⟨rfl, rfl, ?_⟩
    intro k hk
    simp [analyze_game_loop] at hk
  | cons m rest ih =>
    intro board ply
    by_cases hu : is_user_move_b lib my_color board = true
    · have hunf : analyze_game_loop lib evalPos my_color board ply (m :: rest) =
        (⟨lib.fullmove_number board, ply + 1, lib.fen (lib.push board m), lib.san board m,
           some (evalPos (lib.push board m)),
           decide (BLUNDER_THRESHOLD <
             centipawn_loss (evalPos board) (evalPos (lib.push board m)) (my_color.getD ""))⟩ ::
           (analyze_game_loop lib evalPos my_color (lib.push board m) (ply + 1) rest).1,
         centipawn_loss (evalPos board) (evalPos (lib.push board m)) (my_color.getD "") ::
           (analyze_game_loop lib evalPos my_color (lib.push board m) (ply + 1) rest).2.1,
         (if decide (BLUNDER_THRESHOLD <
              centipawn_loss (evalPos board) (evalPos (lib.push board m)) (my_color.getD ""))
          then 1 else 0) +
           (analyze_game_loop lib evalPos my_color (lib.push board m) (ply + 1) rest).2.2) := by
        simp [analyze_game_loop, hu]
      obtain ⟨ihlen, ihcount, ihk⟩ := ih (lib.push board m) (ply + 1)
      rw [hunf]
      refine ⟨by simpa using ihlen, ?_, ?_⟩
      · simp only [List.filter_cons, List.length_cons]
        rcases h2 : decide (BLUNDER_THRESHOLD <
            centipawn_loss (evalPos board) (evalPos (lib.push board m)) (my_color.getD ""))
          with _ | _ <;> simp [h2] <;> omega
      · intro k hk
        match k with
        | 0 =>
          refine ⟨by simp, ?_, ?_⟩
          · simp [replay, hu]
          · simp [replay, hu]
        | k + 1 =>
          simp only [List.getElem_cons_succ, List.length_cons] at hk ⊢
          obtain ⟨h1, h2, h3⟩ := ihk k (by omega)
          refine ⟨by omega, ?_, ?_⟩
          · simpa [replay] using h2
          · simpa [replay] using h3
    · have hunf : analyze_game_loop lib evalPos my_color board ply (m :: rest) =
        (⟨lib.fullmove_number board, ply + 1, lib.fen (lib.push board m), lib.san board m,
           none, false⟩ ::
           (analyze_game_loop lib evalPos my_color (lib.push board m) (ply + 1) rest).1,
         (analyze_game_loop lib evalPos my_color (lib.push board m) (ply + 1) rest).2.1,
         (analyze_game_loop lib evalPos my_color (lib.push board m) (ply + 1) rest).2.2) := by
        simp [analyze_game_loop, hu]
      obtain ⟨ihlen, ihcount, ihk⟩ := ih (lib.push board m) (ply + 1)
      rw [hunf]
      refine ⟨by simpa using ihlen, ?_, ?_⟩
      · simpa using ihcount
      · intro k hk
        match k with
        | 0 =>
          refine ⟨by simp, ?_, ?_⟩
          · simp [replay, hu]
          · simp [replay, hu]
        | k + 1 =>
          simp only [List.getElem_cons_succ, List.length_cons] at hk ⊢
          obtain ⟨h1, h2, h3⟩ := ihk k (by omega)
          refine ⟨by omega, ?_, ?_⟩
          · simpa [replay] using h2
          · simpa [replay] using h3

theorem is_user_move_b_none {B M : Type} (lib : ChessLib B M) (board : B) :
    is_user_move_b lib none board = false := by
  simp [is_user_move_b]

/-- With no tracked color, the loop collects no losses and no blunders. -/
theorem analyze_game_loop_none {B M : Type} (lib : ChessLib B M) (evalPos : B → Int) :
    ∀ (moves : List M) (board : B) (ply : Nat),
      (analyze_game_loop lib evalPos none board ply moves).2.1 = [] ∧
      (analyze_game_loop lib evalPos none board ply moves).2.2 = 0 := by
  intro moves
  induction moves with
  | nil => intro board ply; exact ⟨rfl, rfl⟩
  | cons m rest ih =>
    intro board ply
    have h := ih (lib.push board m) (ply + 1)
    simp [analyze_game_loop, is_user_move_b_none, h.1, h.2]

/-- C4: in every analyzed game the records are one per ply with
contiguous ply indices starting at 1; `engine_eval` is present exactly
when the mover's color is the tracked color; and a set blunder flag
implies `engine_eval` is present and the derived loss exceeds
`BLUNDER_THRESHOLD`. -/
theorem analyze_game_record_invariants {B M : Type} (lib : ChessLib B M) (evalPos : B → Int)
    (headers : String → Option String) (b0 : B) (moves : List M) (game_pgn username : String) :
    (analyze_game lib evalPos headers b0 moves game_pgn username).2.length = moves.length ∧
    (∀ k (hk : k < (analyze_game lib evalPos headers b0 moves game_pgn username).2.length),
      (analyze_game lib evalPos headers b0 moves game_pgn username).2[k].ply = k + 1 ∧
      (analyze_game lib evalPos headers b0 moves game_pgn username).2[k].engine_eval.isSome =
        is_user_move_b lib (identify_user_color headers username)
          (replay lib b0 (moves.take k)) ∧
      ((analyze_game lib evalPos headers b0 moves game_pgn username).2[k].is_blunder = true →
        (analyze_game lib evalPos headers b0 moves game_pgn username).2[k].engine_eval.isSome
            = true ∧
        BLUNDER_THRESHOLD <
          centipawn_loss (evalPos (replay lib b0 (moves.take k)))
            (evalPos (replay lib b0 (moves.take (k + 1))))
            ((identify_user_color headers username).getD ""))) := by
  obtain ⟨hlen, _hcount, hk⟩ :=
    analyze_game_loop_spec lib evalPos (identify_user_color headers username) moves b0 0
  refine ⟨hlen, ?_⟩
  intro k hklt
  simp only [analyze_game] at hklt ⊢
  obtain ⟨h1, h2, h3⟩ := hk k hklt
  refine ⟨by simpa using h1, ?_, ?_⟩
  · rw [h2]
    cases hc : is_user_move_b lib (identify_user_color headers username)
        (replay lib b0 (moves.take k)) <;> simp [hc]
  · intro hb
    obtain ⟨hu, hl⟩ := h3.mp hb
    exact ⟨by simp [h2, hu], hl⟩

/-- A sample board type for concrete runs: the board is the number of
half-moves already played, White to move on even counts. -/
def natLib : ChessLib Nat Unit where
  turn := fun n => n % 2 == 0
  push := fun n _ => n + 1
  san := fun _ _ => ""
  fen := fun _ => ""
  fullmove_number := fun n => n / 2 + 1

/-- A sample White-POV evaluation: the position after the first
half-move is down 201 centipawns, after the third down 200. -/
def evalSample : Nat → Int :=
  fun n => if n = 1 then -201 else if n = 3 then -200 else 0

/-- Sample headers: White "Alice", Black "Bob". -/
def headersAlice : String → Option String :=
  fun k => if k = "White" then some "Alice" else if k = "Black" then some "Bob" else none

/-- Sample headers with the same name as both players. -/
def headersBobBob : String → Option String :=
  fun k => if k = "White" then some "bob" else if k = "Black" then some "bob" else none

/-- Sample headers: White "Alice", Black "Carol". -/
def headersCarol : String → Option String :=
  fun k => if k = "White" then some "Alice" else if k = "Black" then some "Carol" else none

/-- Witness for C4 on a concrete four-ply game tracked for White. -/
theorem analyze_game_record_invariants_witness :
    (analyze_game natLib evalSample headersAlice 0 [(), (), (), ()] "" "alice").2.length = 4 ∧
    ((analyze_game natLib evalSample headersAlice 0 [(), (), (), ()] "" "alice").2.get
        ⟨0, by decide⟩).ply = 1 := by
  have h := analyze_game_record_invariants natLib evalSample headersAlice 0
    [(), (), (), ()] "" "alice"
  have h0 := h.2 0 (by decide)
  exact ⟨by simpa using h.1, by simpa using h0.1⟩

/-- C3: a tracked move (one with an engine evaluation) is flagged a
blunder exactly when its point-of-view centipawn loss strictly exceeds
`BLUNDER_THRESHOLD = 200`, and the game's blunder count equals the
number of flagged move records. -/
theorem blunder_strict_threshold {B M : Type} (lib : ChessLib B M) (evalPos : B → Int)
    (headers : String → Option String) (b0 : B) (moves : List M) (game_pgn username : String) :
    (∀ k (hk : k < (analyze_game lib evalPos headers b0 moves game_pgn username).2.length),
      (analyze_game lib evalPos headers b0 moves game_pgn username).2[k].engine_eval.isSome
          = true →
      ((analyze_game lib evalPos headers b0 moves game_pgn username).2[k].is_blunder = true ↔
        BLUNDER_THRESHOLD <
          centipawn_loss (evalPos (replay lib b0 (moves.take k)))
            (evalPos (replay lib b0 (moves.take (k + 1))))
            ((identify_user_color headers username).getD ""))) ∧
    (analyze_game lib evalPos headers b0 moves game_pgn username).1.blunders =
      ((analyze_game lib evalPos headers b0 moves game_pgn username).2.filter
        (fun rec => rec.is_blunder)).length := by
  obtain ⟨_hlen, hcount, hk⟩ :=
    analyze_game_loop_spec lib evalPos (identify_user_color headers username) moves b0 0
  constructor
  · intro k hklt
    simp only [analyze_game] at hklt ⊢
    obtain ⟨_h1, h2, h3⟩ := hk k hklt
    intro hsome
    constructor
    · intro hb
      exact (h3.mp hb).2
    · intro hl
      refine h3.mpr ⟨?_, hl⟩
      by_contra hu
      rw [h2, if_neg hu] at hsome
      exact Bool.noConfusion hsome
  · simpa only [analyze_game] using hcount

/-- Witness for C3: in the sample game, White's first move loses 201
centipawns and is a blunder; White's second move loses exactly 200 and
is not; the blunder count is the number of flagged records. -/
theorem blunder_strict_threshold_witness :
    ((analyze_game natLib evalSample headersAlice 0 [(), (), (), ()] "" "alice").2.get
        ⟨0, by decide⟩).is_blunder = true ∧
    ((analyze_game natLib evalSample headersAlice 0 [(), (), (), ()] "" "alice").2.get
        ⟨2, by decide⟩).is_blunder = false ∧
    (analyze_game natLib evalSample headersAlice 0 [(), (), (), ()] "" "alice").1.blunders =
      ((analyze_game natLib evalSample headersAlice 0 [(), (), (), ()] "" "alice").2.filter
        (fun rec => rec.is_blunder)).length := by
  have h := blunder_strict_threshold natLib evalSample headersAlice 0 [(), (), (), ()] "" "alice"
  have h0 := h.1 0 (by decide) (by decide)
  have h2 := h.1 2 (by decide) (by decide)
  refine ⟨?_, ?_, h.2⟩
  · have := h0.mpr (by decide)
    simpa using this
  · have hnot : ¬ BLUNDER_THRESHOLD <
        centipawn_loss (evalSample (replay natLib 0 ([(), (), (), ()].take 2)))
          (evalSample (replay natLib 0 ([(), (), (), ()].take 3)))
          ((identify_user_color headersAlice "alice").getD "") := by decide
    have hiff := h2.not
    simp only [List.get_eq_getElem]
    cases hb : ((analyze_game natLib evalSample headersAlice 0
        [(), (), (), ()] "" "alice").2)[2].is_blunder
    · rfl
    · exact absurd (h2.mp hb) hnot

/-- C10: a tracked move's stored `engine_eval` is the raw White-POV
evaluation of the position after the move, not converted to the tracked
player's point of view; for a tracked Black player the POV value of a
stored evaluation is its negation. -/
theorem engine_eval_is_raw_eval_after {B M : Type} (lib : ChessLib B M) (evalPos : B → Int)
    (headers : String → Option String) (b0 : B) (moves : List M) (game_pgn username : String)
    (k : Nat) (hk : k < (analyze_game lib evalPos headers b0 moves game_pgn username).2.length)
    (hu : is_user_move_b lib (identify_user_color headers username)
        (replay lib b0 (moves.take k)) = true) :
    (analyze_game lib evalPos headers b0 moves game_pgn username).2[k].engine_eval =
      some (evalPos (replay lib b0 (moves.take (k + 1)))) ∧
    (identify_user_color headers username = some "black" →
      ∀ s, (analyze_game lib evalPos headers b0 moves game_pgn username).2[k].engine_eval
          = some s → pov_cp s "black" = -s) := by
  obtain ⟨_hlen, _hcount, hall⟩ :=
    analyze_game_loop_spec lib evalPos (identify_user_color headers username) moves b0 0
  simp only [analyze_game] at hk ⊢
  obtain ⟨_h1, h2, _h3⟩ := hall k hk
  refine ⟨by rw [h2, if_pos hu], ?_⟩
  intro _hblack s _hs
  simp [pov_cp]

/-- Witness for C10 on a concrete game tracked for Black: ply 2 stores
the raw evaluation of the position after Black's move. -/
theorem engine_eval_is_raw_eval_after_witness :
    ((analyze_game natLib evalSample headersCarol 0 [(), (), (), ()] "" "carol").2.get
        ⟨1, by decide⟩).engine_eval =
      some (evalSample (replay natLib 0 ([(), (), (), ()].take 2))) ∧
    (∀ s, ((analyze_game natLib evalSample headersCarol 0 [(), (), (), ()] "" "carol").2.get
        ⟨1, by decide⟩).engine_eval = some s → pov_cp s "black" = -s) := by
  have h := engine_eval_is_raw_eval_after natLib evalSample headersCarol 0
    [(), (), (), ()] "" "carol" 1 (by decide) (by decide)
  refine ⟨by simpa using h.1, ?_⟩
  intro s hs
  exact h.2 (by decide) s (by simpa using hs)

/-- C6 (amended): when no player name matches the username
case-insensitively (including an empty or whitespace username), no move
is tracked — every record's `engine_eval` is absent, the game is still
fully replayed (one record per move), accuracy is absent and the blunder
count is zero.  When the username matches the White name — even if it
also matches the Black name — the tracked color is `"white"`: the White
header is checked first. -/
theorem no_match_no_tracking {B M : Type} (lib : ChessLib B M) (evalPos : B → Int)
    (headers : String → Option String) (b0 : B) (moves : List M) (game_pgn username : String) :
    (identify_user_color headers username = none →
      (analyze_game lib evalPos headers b0 moves game_pgn username).2.length = moves.length ∧
      (∀ k (hk : k < (analyze_game lib evalPos headers b0 moves game_pgn username).2.length),
        (analyze_game lib evalPos headers b0 moves game_pgn username).2[k].engine_eval
          = none) ∧
      (analyze_game lib evalPos headers b0 moves game_pgn username).1.my_accuracy = none ∧
      (analyze_game lib evalPos headers b0 moves game_pgn username).1.blunders = 0) ∧
    (username ≠ "" → pyLower (pyStrip username) ≠ "" →
      pyLower (pyStrip ((headers "White").getD "")) = pyLower (pyStrip username) →
      identify_user_color headers username = some "white") := by
  constructor
  · intro hnone
    obtain ⟨hlen, _hcount, hall⟩ :=
      analyze_game_loop_spec lib evalPos (identify_user_color headers username) moves b0 0
    obtain ⟨hlosses, hblunders⟩ :=
      analyze_game_loop_none lib evalPos moves b0 0
    refine ⟨hlen, ?_, ?_, ?_⟩
    · intro k hklt
      simp only [analyze_game] at hklt ⊢
      obtain ⟨_h1, h2, _h3⟩ := hall k hklt
      rw [h2, hnone, if_neg]
      simp [is_user_move_b_none]
    · show accuracy_from_losses
        (analyze_game_loop lib evalPos (identify_user_color headers username) b0 0 moves).2.1
          = none
      rw [hnone, hlosses]
      rfl
    · show (analyze_game_loop lib evalPos (identify_user_color headers username) b0 0 moves).2.2
          = 0
      rw [hnone, hblunders]
  · intro hne hnorm hwhite
    simp only [identify_user_color, if_neg hne]
    rw [if_pos ⟨hnorm, hwhite⟩]

/-- Witness for C6 on concrete games: username "zoe" matches neither
player, so the two-ply game is replayed with no evaluations; username
"bob" matches the White name (and also the Black name) and is tracked
as White. -/
theorem no_match_no_tracking_witness :
    (analyze_game natLib evalSample headersAlice 0 [(), ()] "" "zoe").2.length = 2 ∧
    ((analyze_game natLib evalSample headersAlice 0 [(), ()] "" "zoe").2.get
        ⟨0, by decide⟩).engine_eval = none ∧
    (analyze_game natLib evalSample headersAlice 0 [(), ()] "" "zoe").1.my_accuracy = none ∧
    (analyze_game natLib evalSample headersAlice 0 [(), ()] "" "zoe").1.blunders = 0 ∧
    identify_user_color headersBobBob "bob" = some "white" := by
  have h := (no_match_no_tracking natLib evalSample headersAlice 0 [(), ()] "" "zoe").1
    (by decide)
  refine ⟨h.1, by simpa using h.2.1 0 (by decide), h.2.2.1, h.2.2.2, ?_⟩
  exact (no_match_no_tracking natLib evalSample headersBobBob 0 [] "" "bob").2
    (by decide) (by decide) (by decide)

/-- Counterexample for C6 as stated: with the same name "bob" recorded
as both the White and the Black player, the username "bob" is resolved
to `"white"` and White's moves ARE tracked — the first move record
carries an engine evaluation. -/
theorem same_name_both_players_still_tracked :
    identify_user_color headersBobBob "bob" = some "white" ∧
    ((analyze_game natLib (fun _ => (0 : Int)) headersBobBob 0 [()] "" "bob").2.get
        ⟨0, by decide⟩).engine_eval = some 0 := by
  exact ⟨by decide, by decide⟩

/-- C5: opening-name derivation priority — a non-empty `Opening` header
wins; else the name decoded from the `ECOUrl` last path segment
(hyphens/underscores to spaces, whitespace collapsed), with the
documented example URL yielding "Italian Game Classical"; else
`"ECO " + eco`; else absent. -/
theorem derive_opening_name_priority (headers : String → Option String) :
    (∀ t, normalize_opening_name (headers "Opening") = some t →
      derive_opening_name headers = some t) ∧
    (normalize_opening_name (headers "Opening") = none →
      ∀ u n, normalize_opening_name (headers "ECOUrl") = some u →
        opening_name_from_eco_url u = some n →
        derive_opening_name headers = some n) ∧
    (normalize_opening_name (headers "Opening") = none →
      (∀ u, normalize_opening_name (headers "ECOUrl") = some u →
        opening_name_from_eco_url u = none) →
      ∀ e, normalize_opening_name (headers "ECO") = some e →
        derive_opening_name headers = some ("ECO " ++ e)) ∧
    (normalize_opening_name (headers "Opening") = none →
      (∀ u, normalize_opening_name (headers "ECOUrl") = some u →
        opening_name_from_eco_url u = none) →
      normalize_opening_name (headers "ECO") = none →
      derive_opening_name headers = none) ∧
    opening_name_from_eco_url "https://example.com/openings/Italian-Game-Classical" =
      some "Italian Game Classical" := by
  refine ⟨?_, ?_, ?_, ?_, by decide⟩
  · intro t h
    simp [derive_opening_name, h]
  · intro h0 u n hu hn
    simp [derive_opening_name, h0, hu, hn]
  · intro h0 hurl e he
    rcases h1 : normalize_opening_name (headers "ECOUrl") with _ | u
    · simp [derive_opening_name, h0, h1, he]
    · simp [derive_opening_name, h0, h1, hurl u h1, he]
  · intro h0 hurl h2
    rcases h1 : normalize_opening_name (headers "ECOUrl") with _ | u
    · simp [derive_opening_name, h0, h1, h2]
    · simp [derive_opening_name, h0, h1, hurl u h1, h2]

/-- Headers with only an `ECOUrl` entry (the documented example). -/
def headersEcoUrl : String → Option String :=
  fun k =>
    if k = "ECOUrl" then some "https://example.com/openings/Italian-Game-Classical"
    else none

/-- Headers with only an `ECO` entry. -/
def headersEco : String → Option String :=
  fun k => if k = "ECO" then some "C50" else none

/-- Headers with no opening-related entries. -/
def headersEmpty : String → Option String := fun _ => none

/-- Witness for C5 on the three documented header configurations. -/
theorem derive_opening_name_priority_witness :
    derive_opening_name headersEcoUrl = some "Italian Game Classical" ∧
    derive_opening_name headersEco = some ("ECO " ++ "C50") ∧
    derive_opening_name headersEmpty = none := by
  refine ⟨?_, ?_, ?_⟩
  · exact (derive_opening_name_priority headersEcoUrl).2.1 (by decide)
      "https://example.com/openings/Italian-Game-Classical" "Italian Game Classical"
      (by decide) (by decide)
  · refine (derive_opening_name_priority headersEco).2.2.1 (by decide) ?_ "C50" (by decide)
    intro u hu
    simp [normalize_opening_name, headersEco] at hu
  · refine (derive_opening_name_priority headersEmpty).2.2.2.1 (by decide) ?_ (by decide)
    intro u hu
    simp [normalize_opening_name, headersEmpty] at hu

/-- The `while True` loop of `analyze_pgn` (`src/analysis.py` lines
144-149): games are taken in document order and each is passed to the
per-game analysis, which may raise (modelled as `Except.error`); an
uncaught exception aborts the remaining iterations. -/
def analyze_games_loop {G R : Type} (analyzeOne : G → String → Except String R)
    (username : String) : List G → Except String (List R)
  | [] => .ok []
  | game :: rest => do
    let result ← analyzeOne game username
    let others ← analyze_games_loop analyzeOne username rest
    pure (result :: others)

/-- Embedding of `analyze_pgn` (`src/analysis.py` lines 134-152).  The
external pieces enter as parameters: `parseGames` is the sequence of
games `chess.pgn.read_game` yields from the text, and `analyzeOne` is
`analyze_game` with the shared engine session already applied (its
evaluation calls may raise, hence `Except`). -/
def analyze_pgn {G R : Type} (parseGames : String → List G)
    (analyzeOne : G → String → Except String R)
    (isfile : String → Bool) (which : String → Option String)
    (pgn_text stockfish_path username : String) : Except String (List R) :=
  if pyStrip pgn_text = "" then .ok []
  else do
    let _engine_path ← resolve_stockfish_path isfile which stockfish_path
    analyze_games_loop analyzeOne username (parseGames pgn_text)

theorem analyze_games_loop_all_ok {G R : Type} (analyzeOne : G → String → Except String R)
    (username : String) :
    ∀ games : List G, (∀ g ∈ games, ∃ r, analyzeOne g username = .ok r) →
      ∃ rs, analyze_games_loop analyzeOne username games = .ok rs ∧
        rs.length = games.length ∧
        ∀ k (hk : k < games.length) (hk2 : k < rs.length),
          analyzeOne games[k] username = .ok rs[k] := by
  intro games
  induction games with
  | nil =>
    intro _
    exact ⟨[], rfl, rfl, fun k hk _ => absurd hk (by simp)⟩
  | cons g rest ih =>
    intro hall
    obtain ⟨r, hr⟩ := hall g (by simp)
    obtain ⟨rs, hrs, hlen, hget⟩ := ih (fun g' hg' => hall g' (by simp [hg']))
    refine ⟨r :: rs, ?_, by simp [hlen], ?_⟩
    · simp [analyze_games_loop, hr, hrs, bind, Except.bind, pure, Except.pure]
    · intro k hk hk2
      match k with
      | 0 => simpa using hr
      | k + 1 =>
        simp only [List.getElem_cons_succ]
        exact hget k (by simpa using hk) (by simpa using hk2)

theorem analyze_games_loop_aborts {G R : Type} (analyzeOne : G → String → Except String R)
    (username : String) :
    ∀ (gs1 : List G) (g : G) (gs2 : List G) (e : String),
      (∀ g' ∈ gs1, ∃ r, analyzeOne g' username = .ok r) →
      analyzeOne g username = .error e →
      analyze_games_loop analyzeOne username (gs1 ++ g :: gs2) = .error e := by
  intro gs1
  induction gs1 with
  | nil =>
    intro g gs2 e _ hg
    simp [analyze_games_loop, hg, bind, Except.bind]
  | cons g1 rest ih =>
    intro g gs2 e hok hg
    obtain ⟨r, hr⟩ := hok g1 (by simp)
    have := ih g gs2 e (fun g' hg' => hok g' (by simp [hg'])) hg
    simp [analyze_games_loop, hr, this, bind, Except.bind]

/-- C7 (amended): games are analyzed once each in document order, but a
failure in one game's analysis ABORTS the batch — when every game
succeeds the results come back in document order, and when the first
failing game raises, `analyze_pgn` propagates that error and the
remaining games' outcomes are not produced. -/
theorem analyze_pgn_order_and_abort {G R : Type} (parseGames : String → List G)
    (analyzeOne : G → String → Except String R)
    (isfile : String → Bool) (which : String → Option String)
    (pgn_text stockfish_path username : String)
    (hne : ¬ pyStrip pgn_text = "") (engine_path : String)
    (hres : resolve_stockfish_path isfile which stockfish_path = .ok engine_path) :
    ((∀ g ∈ parseGames pgn_text, ∃ r, analyzeOne g username = .ok r) →
      ∃ rs, analyze_pgn parseGames analyzeOne isfile which pgn_text stockfish_path username
            = .ok rs ∧
        rs.length = (parseGames pgn_text).length ∧
        ∀ k (hk : k < (parseGames pgn_text).length) (hk2 : k < rs.length),
          analyzeOne (parseGames pgn_text)[k] username = .ok rs[k]) ∧
    (∀ (gs1 : List G) (g : G) (gs2 : List G) (e : String),
      parseGames pgn_text = gs1 ++ g :: gs2 →
      (∀ g' ∈ gs1, ∃ r, analyzeOne g' username = .ok r) →
      analyzeOne g username = .error e →
      analyze_pgn parseGames analyzeOne isfile which pgn_text stockfish_path username
        = .error e) := by
  have hunf : analyze_pgn parseGames analyzeOne isfile which pgn_text stockfish_path username
      = analyze_games_loop analyzeOne username (parseGames pgn_text) := by
    simp [analyze_pgn, if_neg hne, hres, bind, Except.bind]
  constructor
  · intro hall
    obtain ⟨rs, hrs, hlen, hget⟩ :=
      analyze_games_loop_all_ok analyzeOne username (parseGames pgn_text) hall
    exact ⟨rs, by rw [hunf, hrs], hlen, hget⟩
  · intro gs1 g gs2 e hsplit hok hg
    rw [hunf, hsplit]
    exact analyze_games_loop_aborts analyzeOne username gs1 g gs2 e hok hg

/-- Witness for C7 on a concrete two-game batch: all-success in document
order, and an error in the first game aborting a batch whose second game
would succeed. -/
theorem analyze_pgn_order_and_abort_witness :
    (∃ rs, analyze_pgn (fun _ => [10, 20]) (fun g _ => Except.ok g)
        (fun _ => true) (fun _ => none) "1. e4 e5" "stockfish" "alice" = .ok rs ∧
      rs.length = ([10, 20] : List Nat).length ∧
      ∀ k (hk : k < ([10, 20] : List Nat).length) (hk2 : k < rs.length),
        (Except.ok ([10, 20] : List Nat)[k] : Except String Nat) = .ok rs[k]) ∧
    analyze_pgn (fun _ => [10, 20])
      (fun g _ => if g = 10 then Except.error "boom" else Except.ok g)
      (fun _ => true) (fun _ => none) "1. e4 e5" "stockfish" "alice" = .error "boom" := by
  constructor
  · exact (analyze_pgn_order_and_abort (fun _ => [10, 20]) (fun g _ => Except.ok g)
      (fun _ => true) (fun _ => none) "1. e4 e5" "stockfish" "alice" (by decide)
      "stockfish" rfl).1 (fun g _ => ⟨g, rfl⟩)
  · exact (analyze_pgn_order_and_abort (fun _ => [10, 20])
      (fun g _ => if g = 10 then Except.error "boom" else Except.ok g)
      (fun _ => true) (fun _ => none) "1. e4 e5" "stockfish" "alice" (by decide)
      "stockfish" rfl).2 [] 10 [20] "boom" rfl (by simp) rfl

/-- Counterexample for C7 as stated: in a two-game document whose first
game's analysis raises, the batch result is the bare error — the second
game's outcome (which would be `ok 20`) is not contained in any result
list, so the failure DOES abort the analysis of the remaining games. -/
theorem analyze_pgn_failure_aborts_batch :
    analyze_pgn (fun _ => [10, 20])
      (fun g _ => if g = 10 then Except.error "boom" else Except.ok g)
      (fun _ => true) (fun _ => none) "1. e4 e5" "stockfish" "alice" = .error "boom" ∧
    (fun g (_ : String) => if g = 10 then Except.error "boom" else Except.ok g) 20 "alice"
      = .ok 20 := by
  exact ⟨rfl, rfl⟩

/-- C8: on an empty or whitespace-only document `analyze_pgn` returns an
empty result list and no error, whatever the engine-path hint, the
username, the parser and the per-game analysis do. -/
theorem analyze_pgn_empty_document {G R : Type} (parseGames : String → List G)
    (analyzeOne : G → String → Except String R)
    (isfile : String → Bool) (which : String → Option String)
    (pgn_text stockfish_path username : String)
    (hws : ∀ c ∈ pgn_text.data, isPySpace c = true) :
    analyze_pgn parseGames analyzeOne isfile which pgn_text stockfish_path username
      = .ok [] := by
  have hdrop : pgn_text.data.dropWhile isPySpace = [] :=
    List.dropWhile_eq_nil_iff.mpr hws
  have hstrip : pyStrip pgn_text = "" := by
    simp [pyStrip, hdrop]
  simp [analyze_pgn, hstrip]

/-- Witness for C8 on a concrete whitespace-only document. -/
theorem analyze_pgn_empty_document_witness :
    analyze_pgn (fun _ => ([0] : List Nat)) (fun g _ => Except.ok g)
      (fun _ => false) (fun _ => none) " \t\n " "/no/such/engine" "alice" = .ok [] :=
  analyze_pgn_empty_document (fun _ => ([0] : List Nat)) (fun g _ => Except.ok g)
    (fun _ => false) (fun _ => none) " \t\n " "/no/such/engine" "alice" (by decide)

theorem resolve_go_spec (isfile : String → Bool) (which : String → Option String) :
    ∀ cs : List String,
      ((∃ e, resolve_stockfish_path.go isfile which cs = .error e) ↔
        ∀ c ∈ cs, c ≠ "" → isfile c = false ∧ which c = none) ∧
      (∀ e, resolve_stockfish_path.go isfile which cs = .error e →
        e = "Stockfish binary not found. Provide a valid path in the sidebar.") := by
  intro cs
  induction cs with
  | nil =>
    refine ⟨⟨fun _ => by simp, fun _ => ⟨_, rfl⟩⟩, ?_⟩
    intro e he
    simp only [resolve_stockfish_path.go, Except.error.injEq] at he
    exact he.symm
  | cons c rest ih =>
    obtain ⟨ih1, ih2⟩ := ih
    by_cases hc : c = ""
    · have hgo : resolve_stockfish_path.go isfile which (c :: rest) =
          resolve_stockfish_path.go isfile which rest := by
        simp [resolve_stockfish_path.go, hc]
      refine ⟨?_, fun e he => ih2 e (by rwa [hgo] at he)⟩
      rw [hgo, ih1]
      subst hc
      simp [List.forall_mem_cons]
    · by_cases hf : isfile c = true
      · have hgo : resolve_stockfish_path.go isfile which (c :: rest) = .ok c := by
          simp [resolve_stockfish_path.go, hc, hf]
        refine ⟨?_, fun e he => absurd (hgo ▸ he) (by simp)⟩
        rw [hgo]
        constructor
        · rintro ⟨e, he⟩
          exact absurd he (by simp)
        · intro h
          have := (h c (by simp) hc).1
          rw [hf] at this
          exact absurd this (by simp)
      · rcases hw : which c with _ | resolved
        · have hgo : resolve_stockfish_path.go isfile which (c :: rest) =
              resolve_stockfish_path.go isfile which rest := by
            simp [resolve_stockfish_path.go, hc, hf, hw]
          refine ⟨?_, fun e he => ih2 e (by rwa [hgo] at he)⟩
          rw [hgo, ih1]
          constructor
          · intro h c' hm hne
            rcases List.mem_cons.mp hm with h1 | h1
            · subst h1
              exact ⟨by simpa using hf, hw⟩
            · exact h c' h1 hne
          · intro h c' hm hne
            exact h c' (List.mem_cons_of_mem _ hm) hne
        · have hgo : resolve_stockfish_path.go isfile which (c :: rest) = .ok resolved := by
            simp [resolve_stockfish_path.go, hc, hf, hw]
          refine ⟨?_, fun e he => absurd (hgo ▸ he) (by simp)⟩
          rw [hgo]
          constructor
          · rintro ⟨e, he⟩
            exact absurd he (by simp)
          · intro h
            have := (h c (by simp) hc).2
            rw [hw] at this
            exact absurd this (by simp)

theorem resolve_go_first_match (isfile : String → Bool) (which : String → Option String) :
    ∀ cs : List String,
      resolve_stockfish_path.go isfile which cs =
        match cs.find? (fun c => !(c == "") && (isfile c || (which c).isSome)) with
        | some c => if isfile c then Except.ok c else Except.ok ((which c).getD "")
        | none =>
          Except.error "Stockfish binary not found. Provide a valid path in the sidebar." := by
  intro cs
  induction cs with
  | nil => rfl
  | cons c rest ih =>
    by_cases hc : c = ""
    · subst hc
      have hpred : (!("" == "") && (isfile "" || (which "").isSome)) = false := by simp
      simp only [resolve_stockfish_path.go, List.find?_cons, hpred, reduceIte, ih]
    · by_cases hf : isfile c = true
      · simp [resolve_stockfish_path.go, List.find?_cons, hc, hf]
      · rcases hw : which c with _ | resolved
        · simp [resolve_stockfish_path.go, List.find?_cons, hc, hf, hw, ih]
        · simp [resolve_stockfish_path.go, List.find?_cons, hc, hf, hw]

/-- C9 (amended): resolution tries, in priority order, the provided
path, the conventional local filename "./stockfish", and the name
"stockfish" — the outcome is decided by the FIRST non-empty candidate in
that order accepted by the file check or the search-path lookup; it
fails exactly when none of the candidates resolves, and the error
reported is a fixed message that does not include the attempted
locations. -/
theorem resolve_stockfish_path_spec (isfile : String → Bool) (which : String → Option String)
    (stockfish_path : String) :
    resolve_stockfish_path isfile which stockfish_path =
      (match [stockfish_path, "./stockfish", "stockfish"].find?
          (fun c => !(c == "") && (isfile c || (which c).isSome)) with
       | some c => if isfile c then Except.ok c else Except.ok ((which c).getD "")
       | none =>
         Except.error "Stockfish binary not found. Provide a valid path in the sidebar.") ∧
    ((∃ e, resolve_stockfish_path isfile which stockfish_path = .error e) ↔
      ∀ c ∈ [stockfish_path, "./stockfish", "stockfish"], c ≠ "" →
        isfile c = false ∧ which c = none) ∧
    (∀ e, resolve_stockfish_path isfile which stockfish_path = .error e →
      e = "Stockfish binary not found. Provide a valid path in the sidebar.") := by
  have h := resolve_go_spec isfile which [stockfish_path, "./stockfish", "stockfish"]
  refine ⟨?_, ?_, ?_⟩
  · simpa [resolve_stockfish_path] using
      resolve_go_first_match isfile which [stockfish_path, "./stockfish", "stockfish"]
  · simpa [resolve_stockfish_path] using h.1
  · simpa [resolve_stockfish_path] using h.2

/-- Witness for C9 at concrete resolver environments: a failing
environment yields the fixed error, and with a non-file provided path
the second candidate "./stockfish" wins by the first-match rule. -/
theorem resolve_stockfish_path_spec_witness :
    (∃ e, resolve_stockfish_path (fun _ => false) (fun _ => none) "/opt/sf" = .error e) ∧
    (∀ e, resolve_stockfish_path (fun _ => false) (fun _ => none) "/opt/sf" = .error e →
      e = "Stockfish binary not found. Provide a valid path in the sidebar.") ∧
    resolve_stockfish_path (fun s => s == "./stockfish") (fun _ => none) "/missing"
      = .ok "./stockfish" := by
  refine ⟨?_, (resolve_stockfish_path_spec (fun _ => false) (fun _ => none) "/opt/sf").2.2, ?_⟩
  · exact (resolve_stockfish_path_spec (fun _ => false) (fun _ => none) "/opt/sf").2.1.mpr
      (by decide)
  · exact
      (resolve_stockfish_path_spec (fun s => s == "./stockfish") (fun _ => none) "/missing").1.trans
        rfl

/-- Whether `pat` is an initial run of `s`. -/
def leadsWith : List Char → List Char → Bool
  | [], _ => true
  | _ :: _, [] => false
  | a :: pat, b :: s => a == b && leadsWith pat s

/-- Whether `pat` occurs contiguously inside `s`. -/
def occursIn : List Char → List Char → Bool
  | pat, [] => pat.isEmpty
  | pat, b :: s => leadsWith pat (b :: s) || occursIn pat s

/-- Counterexample for C9 as stated: with no candidate resolving, the
error raised for the provided path "/opt/sf" is the fixed sidebar
message, which does not contain the attempted location "/opt/sf" (nor
any of the attempted candidates). -/
theorem resolve_error_omits_attempted_locations :
    resolve_stockfish_path (fun _ => false) (fun _ => none) "/opt/sf" =
      .error "Stockfish binary not found. Provide a valid path in the sidebar." ∧
    occursIn "/opt/sf".data
      "Stockfish binary not found. Provide a valid path in the sidebar.".data = false := by
  exact ⟨rfl, by decide⟩
